import Mathlib

/-!
Verification of the tinylog logging library (yanminhui/tinylog).

This file shallowly embeds the parts of `include/tinylog/tinylog.hpp`
(canonical header, version 1.4.0), `src/tinylog.cpp` (older compiled-library
registry, version 1.1.7) and `include/tinylog/tinylog_extra.hpp` that the
verified properties are about, and proves or refutes each property.

Machine integers: the C++ code uses `std::uint8_t` for severity levels
(values 0..5, no overflow possible) and `std::uintmax_t` / `size_t` for
sizes; all are modelled as `Nat` since the relevant code performs no
overflowing arithmetic.
-/

namespace Tinylog

/-! ## Severity levels

`enum level : std::uint8_t { trace, debug, info, warn, error, fatal };`
(tinylog.hpp line 855). Comparisons in the C++ code are the underlying
integer comparisons, modelled via `level.toNat`. -/

inductive level : Type where
  | trace
  | debug
  | info
  | warn
  | error
  | fatal
deriving DecidableEq

def level.toNat : level → Nat
  | .trace => 0
  | .debug => 1
  | .info  => 2
  | .warn  => 3
  | .error => 4
  | .fatal => 5

/-- Embeds `to_string<char>` (tinylog.hpp lines 863..889): the level tag used by the
layout, e.g. `TINYLOG_LEVEL_TRACE = "TRACE"`. Returned as a character list
because the layout below is modelled on `List Char`. -/
def level_to_string : level → List Char
  | .trace => "TRACE".data
  | .debug => "DEBUG".data
  | .info  => "INFO".data
  | .warn  => "WARN".data
  | .error => "ERROR".data
  | .fatal => "FATAL".data

/-! ## Timestamp formatting (`detail::layout_constructor_base::format_time`)

tinylog.hpp lines 1053..1069. `localtime_r` fills a `struct tm`; the code
then streams, under `std::setfill('0')`:
`setw(4) << (tm_year+1900) << '-' << setw(2) << (tm_mon+1) << '-'
 << setw(2) << tm_mday << ' ' << setw(2) << tm_hour << ':' << setw(2)
 << tm_min << ':' << setw(2) << tm_sec << '.' << setw(6) << tv_usec`.
The `struct tm` produced by the (reentrant) local-time conversion is taken
as input; decimal printing of a nonnegative integer by the stream is
`natToDecimal`, and `setw`/`setfill` left-pad with `'0'` without ever
truncating, which is `padZ`. -/

structure Tm where
  tm_year : Nat
  tm_mon : Nat
  tm_mday : Nat
  tm_hour : Nat
  tm_min : Nat
  tm_sec : Nat
deriving DecidableEq

def digitChar : Nat → Char
  | 0 => '0'
  | 1 => '1'
  | 2 => '2'
  | 3 => '3'
  | 4 => '4'
  | 5 => '5'
  | 6 => '6'
  | 7 => '7'
  | 8 => '8'
  | _ => '9'

/-- Decimal digits, structurally recursive on a fuel argument so that the
kernel can evaluate it on concrete inputs; `natToDecimal` below always
supplies enough fuel, and `natToDecimal_eq` recovers the natural recursion
`n < 10 → [digit n]`, otherwise `digits (n / 10) ++ [digit (n % 10)]`. -/
def natToDecimalAux : Nat → Nat → List Char
  | 0, _ => []
  | fuel + 1, n =>
    if n < 10 then [digitChar n]
    else natToDecimalAux fuel (n / 10) ++ [digitChar (n % 10)]

/-- Decimal representation of a `Nat`, most significant digit first, as a
C++ output stream prints a nonnegative integer. -/
def natToDecimal (n : Nat) : List Char :=
  natToDecimalAux (n + 1) n

/-- Embeds `std::setw w` with `std::setfill('0')`: left-pad to width `w` with `'0'`,
never truncating. -/
def padZ (w : Nat) (l : List Char) : List Char :=
  List.replicate (w - l.length) '0' ++ l

def padNum (w n : Nat) : List Char :=
  padZ w (natToDecimal n)

/-- Embeds `detail::layout_constructor_base::format_time` (tinylog.hpp 1053..1069):
the timestamp text. Note the date separators are `'-'`, not `'/'`. -/
def format_time (t : Tm) (usec : Nat) : List Char :=
  padNum 4 (t.tm_year + 1900)
    ++ ('-' :: padNum 2 (t.tm_mon + 1))
    ++ ('-' :: padNum 2 t.tm_mday)
    ++ (' ' :: padNum 2 t.tm_hour)
    ++ (':' :: padNum 2 t.tm_min)
    ++ (':' :: padNum 2 t.tm_sec)
    ++ ('.' :: padNum 6 usec)

/-- Boolean digit test on a character (the usual `'0'..'9'` range). -/
def isDigitB (c : Char) : Bool :=
  48 ≤ c.toNat && c.toNat ≤ 57

/-! ## Layout suffix and trailing newline

`detail::layout_constructor_base::end_with` (tinylog.hpp 1071..1083) and
`detail::layout_constructor<char>::record_suffix` (tinylog.hpp 1101..1108).
The stream contents are modelled as a `List Char`; `record_suffix` appends
`sep "[" LEVEL "]" sep "#" id sep message` (with `sep = TINYLOG_SEPARATOR
= " "`) to the stream and then calls `end_with(strm, '\n')` on the whole
stream contents. -/

/-- Embeds `end_with`: append `delim` iff the accumulated text is empty or does not
already end in `delim`. -/
def end_with (l : List Char) (delim : Char) : List Char :=
  match l.getLast? with
  | none => l ++ [delim]
  | some c => if c ≠ delim then l ++ [delim] else l

/-- The text `record_suffix` streams before calling `end_with`:
`' ' '[' LEVEL ']' ' ' '#' id ' ' message`. -/
def record_suffix_body (lvl : level) (id : Nat) (message : List Char) : List Char :=
  ' ' :: '[' :: (level_to_string lvl ++ (']' :: ' ' :: '#' :: (natToDecimal id ++ (' ' :: message))))

/-- Embeds `layout_constructor_base::construct` for a plain record: `record_prefix`
streams the timestamp, `record_suffix` streams the rest and terminates the
whole stream with `end_with '\n'`. `pre` is the stream contents produced by
`record_prefix` (i.e. `format_time`). -/
def construct_record (pre : List Char) (lvl : level) (id : Nat) (message : List Char) : List Char :=
  end_with (pre ++ record_suffix_body lvl id message) '\n'

/-- The full default-layout message for a record (`gen_record_msg`):
timestamp prefix then suffix. -/
def gen_record_msg (t : Tm) (usec : Nat) (lvl : level) (id : Nat)
    (message : List Char) : List Char :=
  construct_record (format_time t usec) lvl id message

/-! ## Sink write filtering (`sink::basic_sink::write`)

tinylog.hpp 1635..1651: `if (base::get_level() > lvl) return;` then the
locked hook/write sequence runs with the formatted message. The observable
modelled here is whether the message reaches the write hooks. -/

/-- Embeds `basic_sink::write`: delivers the formatted message iff the sink floor
does not exceed the record level. -/
def sink_write (floor lvl : level) (msg : List Char) : Option (List Char) :=
  if floor.toNat > lvl.toNat then none else some msg

/-! ## Sink objects and sink adapters

A concrete sink (`sink::basic_sink_base` state): its severity floor
(`lvl_`, default `trace`), whether its destination is usable (`is_open()`),
and the sequence of formatted messages written to its destination.
`detail::basic_sink_adapter` (tinylog.hpp 2052..2114) holds a
`shared_ptr` to such a sink, modelled as `Option SinkObj` (the pointer may
be null); `is_open()` is `sink_ && sink_->is_open()` (lines 2071..2074). -/

structure SinkObj where
  floor : level
  opened : Bool
  out : List (List Char)
deriving DecidableEq

/-- The record value (`basic_record`): time (already converted to local
`struct tm` plus microseconds), severity, thread id, message. -/
structure Record where
  tm : Tm
  usec : Nat
  lvl : level
  id : Nat
  message : List Char
deriving DecidableEq

/-- Embeds `basic_sink::consume` (tinylog.hpp 1622..1632): format the record with
the default layout, then `write` it (which applies the sink-floor filter
and, if it passes, appends to the destination). -/
def sink_consume (sk : SinkObj) (r : Record) : SinkObj :=
  let msg := gen_record_msg r.tm r.usec r.lvl r.id r.message
  match sink_write sk.floor r.lvl msg with
  | none => sk
  | some m => { sk with out := sk.out ++ [m] }

/-- Embeds `basic_sink_adapter::is_open` (tinylog.hpp 2071..2074):
`sink_ && sink_->is_open()`. -/
def adapter_is_open (a : Option SinkObj) : Bool :=
  match a with
  | none => false
  | some sk => sk.opened

/-- Embeds `basic_sink_adapter::consume`: delegate to the underlying sink
(same character width hence no transcoding in this model). -/
def adapter_consume (a : Option SinkObj) (r : Record) : Option SinkObj :=
  a.map (fun sk => sink_consume sk r)

/-! ## Logger (tinylog.hpp 2121..2234) -/

structure Logger where
  name : String
  lvl : level
  sink_adapters : List (Option SinkObj)
deriving DecidableEq

/-- Embeds `logger::logger(name)`: member initializer `lvl_ = level::trace`, empty
sink-adapter vector (tinylog.hpp 2140..2143, 2230..2233). -/
def logger_new (n : String) : Logger :=
  { name := n, lvl := level.trace, sink_adapters := [] }

/-- Embeds `logger::consume(lvl)` (tinylog.hpp 2197..2200): `lvl >= get_level()`. -/
def Logger.consume (lg : Logger) (lvl : level) : Bool :=
  decide (lg.lvl.toNat ≤ lvl.toNat)

/-- Embeds `logger::set_level` (tinylog.hpp 2162..2165). -/
def Logger.setLevel (lg : Logger) (lvl : level) : Logger :=
  { lg with lvl := lvl }

/-- Embeds `logger::push_record` (tinylog.hpp 2202..2214): for each attached
adapter, skip it if `!*sk_adapter` (not open), otherwise hand it the
record. No severity check appears here. -/
def push_record (lg : Logger) (r : Record) : Logger :=
  { lg with sink_adapters :=
      lg.sink_adapters.map (fun a =>
        if adapter_is_open a then adapter_consume a r else a) }

/-- Embeds `detail::basic_dlprintf_base::is_open` (tinylog.hpp 2565..2568):
`logger_ && logger_->consume(get_level())` — the capture front-end is the
place where the logger floor is checked before flushing. -/
def dlprintf_is_open (lg : Option Logger) (lvl : level) : Bool :=
  match lg with
  | none => false
  | some l => l.consume lvl

/-! ## Registry

Two iterations exist in the corpus: `detail::registry_impl` in the
canonical header tinylog.hpp (v1.4.0, lines 2247..2451), and the older
compiled-library `detail::registry_impl` in src/tinylog.cpp (lines
15..205). They differ in `set_level`/`create_logger`/`get_logger`; both
are embedded. The name→logger map is modelled as an association list,
errors (`throw std::system_error`) as an explicit error value returned
together with the (unchanged) registry state. -/

inductive RegErr : Type where
  | nameExists (n : String)
deriving DecidableEq

structure Registry where
  lvl : level
  loggers : List (String × Logger)
deriving DecidableEq

/-- Embeds `registry_impl::throw_if_exists` (tinylog.hpp 2405..2415): true iff the
name is already registered (in C++ this throws `std::errc::file_exists`). -/
def throw_if_exists (loggers : List (String × Logger)) (n : String) : Bool :=
  (List.lookup n loggers).isSome

/-- Canonical header `registry_impl::set_level` (tinylog.hpp 2289..2293):
only the registry default level is updated. -/
def set_level_hdr (reg : Registry) (lvl : level) : Registry :=
  { reg with lvl := lvl }

/-- Canonical header `registry_impl::create_logger` (tinylog.hpp
2295..2302): throw if the name exists, else register a fresh
`logger(name)`. The fresh logger keeps its member-initialized floor
`level::trace`; the registry default `lvl_` is not applied to it. -/
def create_logger_hdr (reg : Registry) (n : String) :
    Registry × Except RegErr Logger :=
  if throw_if_exists reg.loggers n then
    (reg, Except.error (RegErr.nameExists n))
  else
    let p := logger_new n
    ({ reg with loggers := (n, p) :: reg.loggers }, Except.ok p)

/-- Older compiled-library `registry_impl::set_level` (src/tinylog.cpp
62..70): updates every registered logger and then the default level. -/
def set_level_cpp (reg : Registry) (lvl : level) : Registry :=
  { lvl := lvl
    loggers := reg.loggers.map (fun kv => (kv.1, kv.2.setLevel lvl)) }

/-- Older compiled-library `registry_impl::create_logger` (src/tinylog.cpp
74..82): like the header version but additionally `p->set_level(lvl_)`,
applying the registry default floor to the fresh logger. -/
def create_logger_cpp (reg : Registry) (n : String) :
    Registry × Except RegErr Logger :=
  if throw_if_exists reg.loggers n then
    (reg, Except.error (RegErr.nameExists n))
  else
    let p := (logger_new n).setLevel reg.lvl
    ({ reg with loggers := (n, p) :: reg.loggers }, Except.ok p)

/-- Embeds `registry_impl::erase_logger(name)` (tinylog.hpp 2361..2365):
`loggers_.erase(logger_name)`. -/
def erase_logger (reg : Registry) (n : String) : Registry :=
  { reg with loggers := reg.loggers.filter (fun kv => !(kv.1 == n)) }

/-- Canonical header `registry_impl::get_logger(name, filter_lvl)`
(tinylog.hpp 2331..2341): returns the logger iff it is found AND the
registry default level does not exceed `filter_lvl`; otherwise null. -/
def get_logger_hdr (reg : Registry) (n : String) (filter_lvl : level) :
    Option Logger :=
  let found := List.lookup n reg.loggers
  if found.isSome && decide (reg.lvl.toNat ≤ filter_lvl.toNat) then found
  else none

/-! ## File sink rotation (`sink::basic_file_sink::before_writing`)

tinylog.hpp 1892..1911, with `detail::file_rename` at 544..565 (POSIX
branch). The on-disk state is an association list path → contents. Before
each write, if `current_size + msg.size() < max_file_size_` nothing
happens; otherwise the sink closes the stream, tries
`file_rename(filename_, filename_ + ".bak")` inside `try { } catch (...)
{ }`, and reopens `filename_` with `std::ios_base::out` (truncating). -/

abbrev FS := List (String × String)

def eraseKey (k : String) (fs : FS) : FS :=
  fs.filter (fun kv => !(kv.1 == k))

/-- POSIX `::rename(old, now)`: succeeds (returning 0) iff the source path
exists, atomically replacing any existing destination; fails (returning a
nonzero value) otherwise, leaving the file system unchanged. -/
def osRename (fs : FS) (old now : String) : FS × Int :=
  match List.lookup old fs with
  | none => (fs, -1)
  | some content => ((now, content) :: eraseKey now (eraseKey old fs), 0)

/-- Embeds `detail::file_rename` (tinylog.hpp 544..565, POSIX branch):
`if (!::rename(old, now)) throw std::system_error(...)`. Since `::rename`
returns 0 exactly on success, the guard fires on success, i.e. this
function throws after a successful rename and returns normally after a
failed one; the returned `Bool` records whether it threw. The rename
itself has already happened either way, and the sole caller wraps the call
in `catch (...)`, so the inversion is not observable there. -/
def file_rename (fs : FS) (old now : String) : FS × Bool :=
  let (fsp, r) := osRename fs old now
  if r == 0 then (fsp, true) else (fsp, false)

/-- Reopening `p` with `std::ios_base::out`: the file is created fresh /
truncated to empty. -/
def fsOpenTrunc (fs : FS) (p : String) : FS :=
  (p, "") :: eraseKey p fs

structure FileSinkSt where
  filename : String
  max_file_size : Nat
deriving DecidableEq

/-- Embeds `basic_file_sink::before_writing` (tinylog.hpp 1892..1911). `cur` is
`ostrm_.tellp()` (the current file size) and `msg` the pending formatted
message. Rotation: close, `try { file_rename(filename_, filename_+".bak") }
catch (...) { }` (the thrown flag is discarded — no exception escapes),
clear, reopen truncating. -/
def before_writing (sk : FileSinkSt) (fs : FS) (cur : Nat) (msg : List Char) : FS :=
  if cur + msg.length < sk.max_file_size then fs
  else
    let (fs1, _thrown) := file_rename fs sk.filename (sk.filename ++ ".bak")
    fsOpenTrunc fs1 sk.filename

/-! ## STL pretty-printing collaborator (tinylog_extra.hpp)

`detail::print_sequence` (tinylog_extra.hpp 239..260) and the
`std::operator<<` overload for `std::pair` (tinylog_extra.hpp 272..283).
Elements are taken already rendered to text (the loop streams `*b` with the
element type's own inserter). -/

def max_print_count : Nat := 100

/-- The loop of `print_sequence`:
`for (i = 0; b != e && i < max_print_count; ++i, ++b) { if (i > 0) out <<
", "; out << *b; }` — returns the streamed text and the remaining
iterator range. -/
def print_seq_items : List String → Nat → String × List String
  | [], _ => ("", [])
  | x :: xs, i =>
    if i < max_print_count then
      let s := (if i > 0 then ", " else "") ++ x
      let (rest, rem) := print_seq_items xs (i + 1)
      (s ++ rest, rem)
    else ("", x :: xs)

/-- Embeds `detail::print_sequence` (tinylog_extra.hpp 239..260): opening bracket
(brace for maps), up to `max_print_count` elements separated by `", "`, a
`" ..."` marker when elements remain, closing bracket. -/
def print_sequence (is_map : Bool) (elems : List String) : String :=
  let (items, rem) := print_seq_items elems 0
  (if is_map then "\x7b" else "[")
    ++ items
    ++ (if rem ≠ [] then " " ++ "..." else "")
    ++ (if is_map then "\x7d" else "]")

/-- Embeds `std::operator<<(ostream&, pair)` (tinylog_extra.hpp 272..283):
`out << p.first << ':' << ' ' << p.second`. -/
def print_pair (k v : String) : String :=
  k ++ ":" ++ " " ++ v

/-- Plain comma-separated join, used to state what "the first 100 elements
separated by `", "`" means independently of the loop above. -/
def commaJoin : List String → String
  | [] => ""
  | [x] => x
  | x :: y :: xs => x ++ ", " ++ commaJoin (y :: xs)

/-- Join where every element is preceded by `", "` (the loop's behaviour
for positions `i > 0`). -/
def commaTail : List String → String
  | [] => ""
  | x :: xs => ", " ++ x ++ commaTail xs

/-! ## Supporting lemmas -/

theorem natToDecimalAux_fuel_irrel :
    ∀ (n f1 f2 : Nat), n < f1 → n < f2 →
      natToDecimalAux f1 n = natToDecimalAux f2 n := by
  intro n
  induction n using Nat.strong_induction_on with
  | _ n ih =>
    intro f1 f2 h1 h2
    match f1, f2 with
    | g1 + 1, g2 + 1 =>
      simp only [natToDecimalAux]
      by_cases h : n < 10
      · simp [h]
      · simp only [if_neg h]
        have hd : n / 10 < n := Nat.div_lt_self (by omega) (by omega)
        rw [ih (n / 10) hd g1 (g2 + 1) (by omega) (by omega),
            ih (n / 10) hd (g2 + 1) g2 (by omega) (by omega)]

theorem natToDecimal_eq (n : Nat) :
    natToDecimal n =
      if n < 10 then [digitChar n]
      else natToDecimal (n / 10) ++ [digitChar (n % 10)] := by
  have hstep : natToDecimal n
      = (if n < 10 then [digitChar n]
         else natToDecimalAux n (n / 10) ++ [digitChar (n % 10)]) := rfl
  rw [hstep]
  by_cases h : n < 10
  · simp [h]
  · have hd : n / 10 < n := Nat.div_lt_self (by omega) (by omega)
    rw [if_neg h, if_neg h,
        natToDecimalAux_fuel_irrel (n / 10) n (n / 10 + 1) (by omega) (by omega)]
    rfl

theorem isDigitB_digitChar (d : Nat) : isDigitB (digitChar d) = true := by
  match d with
  | 0 => decide
  | 1 => decide
  | 2 => decide
  | 3 => decide
  | 4 => decide
  | 5 => decide
  | 6 => decide
  | 7 => decide
  | 8 => decide
  | n + 9 => rfl

theorem natToDecimal_digits (n : Nat) :
    (natToDecimal n).all isDigitB = true := by
  induction n using Nat.strong_induction_on with
  | _ n ih =>
    rw [natToDecimal_eq]
    by_cases h : n < 10
    · simp [h, isDigitB_digitChar]
    · have hd : n / 10 < n := Nat.div_lt_self (by omega) (by omega)
      simp [h, List.all_append, ih (n / 10) hd, isDigitB_digitChar]

theorem natToDecimal_length_le :
    ∀ (k n : Nat), 1 ≤ k → n < 10 ^ k → (natToDecimal n).length ≤ k := by
  intro k
  induction k with
  | zero => omega
  | succ k ihk =>
    intro n _ hn
    rw [natToDecimal_eq]
    by_cases h : n < 10
    · simp [h]
    · have hk : 1 ≤ k := by
        by_contra hc
        have : k = 0 := by omega
        subst this
        simp [pow_succ] at hn
        omega
      have hd : n / 10 < 10 ^ k := by
        have := (Nat.div_lt_iff_lt_mul (by omega : 0 < 10)).mpr
          (by rw [← pow_succ]; exact hn)
        exact this
      have := ihk (n / 10) hk hd
      simp [h, List.length_append]
      omega

theorem padZ_length {l : List Char} {w : Nat} (h : l.length ≤ w) :
    (padZ w l).length = w := by
  simp [padZ, List.length_append, List.length_replicate]
  omega

theorem padZ_digits {l : List Char} {w : Nat} (h : l.all isDigitB = true) :
    (padZ w l).all isDigitB = true := by
  simp only [padZ, List.all_append, h, Bool.and_true]
  simp only [List.all_replicate]
  split <;> decide

theorem padNum_length {w n : Nat} (hk : 1 ≤ w) (h : n < 10 ^ w) :
    (padNum w n).length = w :=
  padZ_length (natToDecimal_length_le w n hk h)

theorem padNum_digits (w n : Nat) : (padNum w n).all isDigitB = true :=
  padZ_digits (natToDecimal_digits n)

theorem lookup_filterKey_self {α : Type} (l : List (String × α)) (k : String) :
    List.lookup k (l.filter (fun kv => !(kv.1 == k))) = none := by
  induction l with
  | nil => simp
  | cons x xs ih =>
    by_cases hx : (x.1 == k) = true
    · simp only [List.filter, hx, Bool.not_true]
      exact ih
    · have hx' : (x.1 == k) = false := by
        cases hb : (x.1 == k) with
        | true => exact absurd hb hx
        | false => rfl
      have hk : (k == x.1) = false := by
        refine beq_eq_false_iff_ne.mpr ?_
        intro e
        exact (beq_eq_false_iff_ne.mp hx') e.symm
      simp only [List.filter, hx', Bool.not_false]
      cases x with
      | mk a b =>
        simp only [List.lookup, hk]
        exact ih

theorem lookup_filterKey_ne {α : Type} (l : List (String × α)) {k q : String}
    (h : q ≠ k) :
    List.lookup q (l.filter (fun kv => !(kv.1 == k))) = List.lookup q l := by
  induction l with
  | nil => simp
  | cons x xs ih =>
    cases x with
    | mk a b =>
      by_cases hx : (a == k) = true
      · have ha : a = k := beq_iff_eq.mp hx
        have hq : (q == a) = false := beq_eq_false_iff_ne.mpr (by rw [ha]; exact h)
        simp only [List.filter, hx, Bool.not_true, List.lookup, hq, ih]
      · have hx' : (a == k) = false := by
          cases hb : (a == k) with
          | true => exact absurd hb hx
          | false => rfl
        simp only [List.filter, hx', Bool.not_false, List.lookup]
        cases hq : (q == a) with
        | true => rfl
        | false => exact ih

theorem lookup_map_none {α : Type} (l : List (String × α)) (f : α → α)
    (k : String) (h : List.lookup k l = none) :
    List.lookup k (l.map (fun kv => (kv.1, f kv.2))) = none := by
  induction l with
  | nil => simp
  | cons x xs ih =>
    simp only [List.map_cons, List.lookup] at h ⊢
    cases hx : (k == x.1) with
    | true => simp [hx] at h
    | false => simp only [hx] at h ⊢; exact ih h

theorem sink_consume_opened (sk : SinkObj) (r : Record) :
    (sink_consume sk r).opened = sk.opened := by
  simp only [sink_consume]
  split <;> rfl

/-! ## Claim theorems -/

/-- Claim C1: for every record level `L` and floor `F`, a sink with floor
`F` writes a record of level `L` iff `L ≥ F` (boundary `L = F` delivered,
`L < F` not), and `logger::consume` makes the same decision for the logger
floor. -/
theorem sink_and_logger_floor_boundary :
    ∀ (L F : level) (msg : List Char) (n : String) (as : List (Option SinkObj)),
      ((sink_write F L msg).isSome = true ↔ F.toNat ≤ L.toNat)
      ∧ (Logger.consume ⟨n, F, as⟩ L = true ↔ F.toNat ≤ L.toNat)
      ∧ (sink_write F L msg).isSome = Logger.consume ⟨n, F, as⟩ L := by
  intro L F msg n as
  by_cases h : F.toNat ≤ L.toNat
  · have hgt : ¬ F.toNat > L.toNat := by omega
    simp [sink_write, Logger.consume, h, hgt]
  · have hgt : F.toNat > L.toNat := by omega
    simp [sink_write, Logger.consume, h, hgt]

/-- Claim C7: a sink adapter's `is_open` is true exactly when the
underlying sink pointer is non-null and that sink's own `is_open` is true;
`consume` preserves both the pointer's presence and this relationship. -/
theorem adapter_open_iff_sink_open :
    ∀ (a : Option SinkObj) (r : Record),
      (adapter_is_open a = true ↔ ∃ sk, a = some sk ∧ sk.opened = true)
      ∧ (adapter_consume a r).isSome = a.isSome
      ∧ adapter_is_open (adapter_consume a r) = adapter_is_open a := by
  intro a r
  cases a with
  | none => simp [adapter_is_open, adapter_consume]
  | some sk =>
    refine ⟨?_, ?_, ?_⟩
    · simp [adapter_is_open]
    · simp [adapter_consume]
    · simp [adapter_is_open, adapter_consume, sink_consume_opened]

/-- Claim C9: `logger::push_record` applies no severity filtering — its
result does not depend on the logger floor, every attached open adapter
receives the record, and the logger-floor test `consume` appears only in
the capture front-end readiness check (`basic_dlprintf_base::is_open`). -/
theorem push_record_bypasses_logger_floor :
    ∀ (l1 l2 : level) (n1 n2 : String) (as : List (Option SinkObj))
      (r : Record) (lg : Logger) (a : Option SinkObj),
      (push_record ⟨n1, l1, as⟩ r).sink_adapters
        = (push_record ⟨n2, l2, as⟩ r).sink_adapters
      ∧ (a ∈ lg.sink_adapters → adapter_is_open a = true →
          adapter_consume a r ∈ (push_record lg r).sink_adapters)
      ∧ dlprintf_is_open (some lg) l1 = lg.consume l1 := by
  intro l1 l2 n1 n2 as r lg a
  refine ⟨rfl, ?_, rfl⟩
  intro hmem hopen
  simp only [push_record]
  exact List.mem_map.mpr ⟨a, hmem, by simp [hopen]⟩

/-- Witness for C9: a logger whose floor is `fatal` still hands a `trace`
record to its attached open adapter. -/
theorem push_record_bypasses_logger_floor_witness :
    adapter_consume (some ⟨level.warn, true, []⟩)
        ⟨⟨118, 4, 20, 15, 14, 23⟩, 7, level.trace, 1, "hi".data⟩
      ∈ (push_record ⟨"app", level.fatal, [some ⟨level.warn, true, []⟩]⟩
          ⟨⟨118, 4, 20, 15, 14, 23⟩, 7, level.trace, 1, "hi".data⟩).sink_adapters :=
  (push_record_bypasses_logger_floor level.fatal level.fatal "app" "app"
      [some ⟨level.warn, true, []⟩]
      ⟨⟨118, 4, 20, 15, 14, 23⟩, 7, level.trace, 1, "hi".data⟩
      ⟨"app", level.fatal, [some ⟨level.warn, true, []⟩]⟩
      (some ⟨level.warn, true, []⟩)).2.1 (by decide) (by decide)

/-- Claim C10: `get_logger(name, filter_lvl)` returns an absent result iff
the name is unregistered OR the registry default level strictly exceeds
`filter_lvl`; when the name is registered and the default level does not
exceed `filter_lvl`, the registered logger is returned. -/
theorem get_logger_level_filter :
    ∀ (reg : Registry) (n : String) (f : level),
      (get_logger_hdr reg n f = none ↔
        List.lookup n reg.loggers = none ∨ f.toNat < reg.lvl.toNat)
      ∧ (∀ p, List.lookup n reg.loggers = some p → reg.lvl.toNat ≤ f.toNat →
          get_logger_hdr reg n f = some p) := by
  intro reg n f
  constructor
  · unfold get_logger_hdr
    cases h : List.lookup n reg.loggers with
    | none => simp [h]
    | some p =>
      by_cases hl : reg.lvl.toNat ≤ f.toNat
      · simp [h, hl]
      · simp [h, hl]
        omega
  · intro p hp hl
    simp [get_logger_hdr, hp, hl]

/-- Witness for C10: a registered logger is returned when the registry
default level does not exceed the filter level. -/
theorem get_logger_level_filter_witness :
    get_logger_hdr ⟨level.trace, [("app", logger_new "app")]⟩ "app" level.trace
      = some (logger_new "app") :=
  (get_logger_level_filter ⟨level.trace, [("app", logger_new "app")]⟩
      "app" level.trace).2 (logger_new "app") (by decide) (by decide)

/-- Claim C3: creating a logger under a free name succeeds and registers
it; a second creation under the same name fails with a name-collision
error and leaves the registry unchanged; after erasing the logger the name
can be reused. -/
theorem registry_create_erase_reuse :
    ∀ (reg : Registry) (n : String),
      List.lookup n reg.loggers = none →
      ∃ reg1 p,
        create_logger_hdr reg n = (reg1, Except.ok p)
        ∧ List.lookup n reg1.loggers = some p
        ∧ create_logger_hdr reg1 n = (reg1, Except.error (RegErr.nameExists n))
        ∧ ∃ reg2 q, create_logger_hdr (erase_logger reg1 n) n = (reg2, Except.ok q) := by
  intro reg n h
  have hfree : throw_if_exists reg.loggers n = false := by
    simp [throw_if_exists, h]
  refine ⟨{ reg with loggers := (n, logger_new n) :: reg.loggers },
          logger_new n, ?_, ?_, ?_, ?_⟩
  · simp [create_logger_hdr, hfree]
  · simp [List.lookup]
  · simp [create_logger_hdr, throw_if_exists, List.lookup]
  · have herased : List.lookup n
        (erase_logger { reg with
          loggers := (n, logger_new n) :: reg.loggers } n).loggers = none := by
      simp only [erase_logger]
      exact lookup_filterKey_self _ n
    have hfree2 : throw_if_exists
        (erase_logger { reg with
          loggers := (n, logger_new n) :: reg.loggers } n).loggers n = false := by
      simp [throw_if_exists, herased]
    refine ⟨{ lvl := (erase_logger { reg with
                loggers := (n, logger_new n) :: reg.loggers } n).lvl,
              loggers := (n, logger_new n) ::
                (erase_logger { reg with
                  loggers := (n, logger_new n) :: reg.loggers } n).loggers },
            logger_new n, ?_⟩
    simp [create_logger_hdr, hfree2]

/-- Witness for C3: on an empty registry, create "app", collide on the
second create, erase, and re-create. -/
theorem registry_create_erase_reuse_witness :
    ∃ reg1 p,
      create_logger_hdr ⟨level.trace, []⟩ "app" = (reg1, Except.ok p)
      ∧ List.lookup "app" reg1.loggers = some p
      ∧ create_logger_hdr reg1 "app"
          = (reg1, Except.error (RegErr.nameExists "app"))
      ∧ ∃ reg2 q,
          create_logger_hdr (erase_logger reg1 "app") "app"
            = (reg2, Except.ok q) :=
  registry_create_erase_reuse ⟨level.trace, []⟩ "app" (by decide)

/-- Counterexample for C4: after `registry::set_level(info)` on the
canonical header registry, `create_logger("n")` returns a logger whose
floor is `trace`, not the default `info` the claim requires. -/
theorem create_logger_default_floor_cex :
    (create_logger_hdr (set_level_hdr ⟨level.trace, []⟩ level.info) "n").2
      = Except.ok (logger_new "n")
    ∧ (logger_new "n").lvl = level.trace
    ∧ level.trace ≠ level.info :=
  ⟨rfl, rfl, by decide⟩

/-- Claim C4 (amended): in the canonical header registry, `create_logger`
returns a new logger whose floor is `level::trace` regardless of the
default floor `D` set via `set_level`; only the older compiled-library
registry (src/tinylog.cpp) applies the default `D` to the new logger. -/
theorem create_logger_default_floor_versions :
    ∀ (reg : Registry) (n : String) (D : level),
      List.lookup n reg.loggers = none →
      (∃ p, (create_logger_hdr (set_level_hdr reg D) n).2 = Except.ok p
        ∧ p.lvl = level.trace)
      ∧ (∃ q, (create_logger_cpp (set_level_cpp reg D) n).2 = Except.ok q
        ∧ q.lvl = D) := by
  intro reg n D h
  constructor
  · refine ⟨logger_new n, ?_, rfl⟩
    simp [create_logger_hdr, set_level_hdr, throw_if_exists, h]
  · refine ⟨(logger_new n).setLevel D, ?_, rfl⟩
    have h2 : List.lookup n
        (List.map (fun kv => (kv.1, kv.2.setLevel D)) reg.loggers) = none :=
      lookup_map_none reg.loggers (fun lg => lg.setLevel D) n h
    simp [create_logger_cpp, throw_if_exists, set_level_cpp, h2]

/-- Witness for C4 (amended): default floor `info`, fresh name "n": the
header registry yields a `trace` logger, the compiled-library registry an
`info` logger. -/
theorem create_logger_default_floor_versions_witness :
    (∃ p, (create_logger_hdr (set_level_hdr ⟨level.trace, []⟩ level.info) "n").2
        = Except.ok p ∧ p.lvl = level.trace)
    ∧ (∃ q, (create_logger_cpp (set_level_cpp ⟨level.trace, []⟩ level.info) "n").2
        = Except.ok q ∧ q.lvl = level.info) :=
  create_logger_default_floor_versions ⟨level.trace, []⟩ "n" level.info (by decide)

theorem append_bak_ne (s : String) : (s ++ ".bak") ≠ s := by
  intro e
  have h := congrArg String.length e
  rw [String.length_append] at h
  have h4 : (".bak" : String).length = 4 := rfl
  omega

/-- Claim C2: the file sink rotates before writing exactly when
`current_size + size(msg) ≥ max_size`; rotation renames the live file to
`<path>.bak` (replacing any existing backup) and reopens `<path>` fresh in
truncate mode; a failing rename is swallowed (`before_writing` returns
normally in every case) and writing continues into the reopened path. -/
theorem file_sink_rotation :
    ∀ (sk : FileSinkSt) (fs : FS) (cur : Nat) (msg : List Char),
      (cur + msg.length < sk.max_file_size →
        before_writing sk fs cur msg = fs)
      ∧ (sk.max_file_size ≤ cur + msg.length →
          (∀ content, List.lookup sk.filename fs = some content →
            List.lookup (sk.filename ++ ".bak") (before_writing sk fs cur msg)
              = some content
            ∧ List.lookup sk.filename (before_writing sk fs cur msg) = some "")
          ∧ (List.lookup sk.filename fs = none →
              before_writing sk fs cur msg = fsOpenTrunc fs sk.filename)) := by
  intro sk fs cur msg
  constructor
  · intro h
    simp [before_writing, h]
  · intro hge
    have hlt : ¬ (cur + msg.length < sk.max_file_size) := by omega
    constructor
    · intro content hc
      have hbeq : ((sk.filename ++ ".bak") == sk.filename) = false :=
        beq_eq_false_iff_ne.mpr (append_bak_ne sk.filename)
      constructor
      · simp only [before_writing, if_neg hlt, file_rename, osRename, hc,
                   fsOpenTrunc, eraseKey]
        simp [List.lookup, List.filter, hbeq]
      · simp only [before_writing, if_neg hlt, file_rename, osRename, hc,
                   fsOpenTrunc, eraseKey]
        simp [List.lookup]
    · intro hnone
      simp [before_writing, if_neg hlt, file_rename, osRename, hnone]

/-- Witness for C2: live file of size 8, 3-byte pending message, cap 10:
rotation replaces the stale backup with the live content and truncates the
live file. -/
theorem file_sink_rotation_witness :
    List.lookup ("out.log" ++ ".bak")
        (before_writing ⟨"out.log", 10⟩
          [("out.log", "AAAA"), ("out.log.bak", "OLD")] 8 "xyz".data)
      = some "AAAA"
    ∧ List.lookup "out.log"
        (before_writing ⟨"out.log", 10⟩
          [("out.log", "AAAA"), ("out.log.bak", "OLD")] 8 "xyz".data)
      = some "" :=
  ((file_sink_rotation ⟨"out.log", 10⟩
      [("out.log", "AAAA"), ("out.log.bak", "OLD")] 8 "xyz".data).2
    (by decide)).1 "AAAA" (by decide)

/-- Counterexample for C5: for the local time 2018-05-20 15:14:23 and 7
microseconds, `format_time` yields `"2018-05-20 15:14:23.000007"` — the
date fields are separated by `'-'`, not by `'/'` as the claim states. -/
theorem format_time_slash_cex :
    format_time ⟨118, 4, 20, 15, 14, 23⟩ 7 = "2018-05-20 15:14:23.000007".data
    ∧ format_time ⟨118, 4, 20, 15, 14, 23⟩ 7 ≠ "2018/05/20 15:14:23.000007".data := by
  decide

/-- Claim C5 (amended): for every record, the layout timestamp is
`YYYY-MM-DD HH:MM:SS.ffffff` — `'-'`-separated date (not `'/'`), local
time, microsecond fractional part, every field zero-padded to its fixed
width (4/2/2/2/2/2/6 digit characters). -/
theorem format_time_shape :
    ∀ (t : Tm) (usec : Nat),
      t.tm_year + 1900 < 10000 → t.tm_mon + 1 < 100 → t.tm_mday < 100 →
      t.tm_hour < 100 → t.tm_min < 100 → t.tm_sec < 100 → usec < 1000000 →
      ∃ Y M D h m s u : List Char,
        format_time t usec
          = Y ++ '-' :: (M ++ '-' :: (D ++ ' ' :: (h ++ ':' :: (m ++ ':' :: (s ++ '.' :: u)))))
        ∧ Y.length = 4 ∧ M.length = 2 ∧ D.length = 2 ∧ h.length = 2
        ∧ m.length = 2 ∧ s.length = 2 ∧ u.length = 6
        ∧ (Y ++ M ++ D ++ h ++ m ++ s ++ u).all isDigitB = true := by
  intro t usec hy hmo hd hh hmi hs hu
  have p2 : (10 : Nat) ^ 2 = 100 := by norm_num
  have p4 : (10 : Nat) ^ 4 = 10000 := by norm_num
  have p6 : (10 : Nat) ^ 6 = 1000000 := by norm_num
  refine ⟨padNum 4 (t.tm_year + 1900), padNum 2 (t.tm_mon + 1),
          padNum 2 t.tm_mday, padNum 2 t.tm_hour, padNum 2 t.tm_min,
          padNum 2 t.tm_sec, padNum 6 usec,
          ?_, ?_, ?_, ?_, ?_, ?_, ?_, ?_, ?_⟩
  · simp [format_time]
  · exact padNum_length (by omega) (by omega)
  · exact padNum_length (by omega) (by omega)
  · exact padNum_length (by omega) (by omega)
  · exact padNum_length (by omega) (by omega)
  · exact padNum_length (by omega) (by omega)
  · exact padNum_length (by omega) (by omega)
  · exact padNum_length (by omega) (by omega)
  · simp [List.all_append, padNum_digits]

/-- Witness for C5 (amended): the shape theorem applied to the concrete
local time 2018-05-20 15:14:23.000007. -/
theorem format_time_shape_witness :
    ∃ Y M D h m s u : List Char,
      format_time ⟨118, 4, 20, 15, 14, 23⟩ 7
        = Y ++ '-' :: (M ++ '-' :: (D ++ ' ' :: (h ++ ':' :: (m ++ ':' :: (s ++ '.' :: u)))))
      ∧ Y.length = 4 ∧ M.length = 2 ∧ D.length = 2 ∧ h.length = 2
      ∧ m.length = 2 ∧ s.length = 2 ∧ u.length = 6
      ∧ (Y ++ M ++ D ++ h ++ m ++ s ++ u).all isDigitB = true :=
  format_time_shape ⟨118, 4, 20, 15, 14, 23⟩ 7 (by decide) (by decide)
    (by decide) (by decide) (by decide) (by decide) (by decide)

theorem record_suffix_body_split (lvl : level) (id : Nat) (msg : List Char) :
    record_suffix_body lvl id msg = record_suffix_body lvl id [] ++ msg := by
  simp [record_suffix_body]

theorem record_suffix_body_last (lvl : level) (id : Nat) :
    (record_suffix_body lvl id []).getLast? = some ' ' := by
  have h : record_suffix_body lvl id []
      = (' ' :: '[' :: (level_to_string lvl
          ++ (']' :: ' ' :: '#' :: natToDecimal id))) ++ [' '] := by
    simp [record_suffix_body]
  rw [h, List.getLast?_concat]

theorem record_suffix_body_ne_nil (lvl : level) (id : Nat) (msg : List Char) :
    record_suffix_body lvl id msg ≠ [] := by
  simp [record_suffix_body]

theorem getLast?_decomp {l : List Char} {c : Char} (h : l.getLast? = some c) :
    l.dropLast ++ [c] = l := by
  have hne : l ≠ [] := by
    intro e; subst e; simp at h
  have h2 : l.getLast? = some (l.getLast hne) := List.getLast?_eq_getLast l hne
  rw [h2] at h
  have h3 : c = l.getLast hne := (Option.some.injEq _ _ ▸ h).symm
  rw [h3]
  exact List.dropLast_append_getLast hne

theorem construct_record_body_last (pre : List Char) (lvl : level) (id : Nat)
    (msg : List Char) :
    (pre ++ record_suffix_body lvl id msg).getLast?
      = if msg = [] then some ' ' else msg.getLast? := by
  rw [List.getLast?_append_of_ne_nil pre (record_suffix_body_ne_nil lvl id msg)]
  by_cases hm : msg = []
  · subst hm
    simp [record_suffix_body_last]
  · rw [record_suffix_body_split, List.getLast?_append_of_ne_nil _ hm, if_neg hm]

/-- Counterexample for C6: a record whose message is `"a\n\n"` produces a
layout output ending in TWO newlines (`end_with` appends nothing when the
text already ends in `'\n'`, but it never removes surplus newlines), so
the output does not end in exactly one trailing newline. -/
theorem layout_trailing_newline_cex :
    (gen_record_msg ⟨118, 4, 20, 15, 14, 23⟩ 7 level.info 1 "a\n\n".data).getLast?
      = some '\n'
    ∧ (gen_record_msg ⟨118, 4, 20, 15, 14, 23⟩ 7 level.info 1
        "a\n\n".data).dropLast.getLast? = some '\n' := by
  decide

/-- Claim C6 (amended): the default layout output always ends in a newline;
if the message already ends with `'\n'` nothing is appended (so formatting
is idempotent with respect to the trailing newline), otherwise exactly one
`'\n'` is appended; and a message ending in exactly one `'\n'` yields
output ending in exactly one `'\n'` (a message ending in several newlines
keeps them all, which is the one correction to the claim). -/
theorem layout_trailing_newline :
    ∀ (pre : List Char) (lvl : level) (id : Nat) (msg : List Char),
      (construct_record pre lvl id msg).getLast? = some '\n'
      ∧ (msg.getLast? = some '\n' →
          construct_record pre lvl id msg = pre ++ record_suffix_body lvl id msg)
      ∧ (msg.getLast? ≠ some '\n' →
          construct_record pre lvl id msg
            = (pre ++ record_suffix_body lvl id msg) ++ ['\n'])
      ∧ (msg.getLast? = some '\n' → msg.dropLast.getLast? ≠ some '\n' →
          (construct_record pre lvl id msg).dropLast.getLast? ≠ some '\n') := by
  intro pre lvl id msg
  have hbody := construct_record_body_last pre lvl id msg
  have hpart2 : msg.getLast? = some '\n' →
      construct_record pre lvl id msg = pre ++ record_suffix_body lvl id msg := by
    intro h1
    have hm : msg ≠ [] := by intro e; subst e; simp at h1
    rw [if_neg hm, h1] at hbody
    simp [construct_record, end_with, hbody]
  have hpart3 : msg.getLast? ≠ some '\n' →
      construct_record pre lvl id msg
        = (pre ++ record_suffix_body lvl id msg) ++ ['\n'] := by
    intro h1
    by_cases hm : msg = []
    · rw [if_pos hm] at hbody
      simp [construct_record, end_with, hbody]
    · rw [if_neg hm] at hbody
      cases hc : msg.getLast? with
      | none =>
        exact absurd (List.getLast?_isSome.mpr hm) (by simp [hc])
      | some c =>
        rw [hc] at hbody
        have hcne : c ≠ '\n' := by intro e; subst e; exact h1 hc
        simp [construct_record, end_with, hbody, hcne]
  refine ⟨?_, hpart2, hpart3, ?_⟩
  · by_cases h1 : msg.getLast? = some '\n'
    · have hm : msg ≠ [] := by intro e; subst e; simp at h1
      rw [hpart2 h1, construct_record_body_last, if_neg hm, h1]
    · rw [hpart3 h1, List.getLast?_concat]
  · intro h1 h2
    have hX : pre ++ record_suffix_body lvl id msg
        = ((pre ++ record_suffix_body lvl id []) ++ msg.dropLast) ++ ['\n'] := by
      conv_lhs => rw [record_suffix_body_split, ← getLast?_decomp h1]
      simp [List.append_assoc]
    rw [hpart2 h1, hX, List.dropLast_concat]
    by_cases hdm : msg.dropLast = []
    · rw [hdm, List.append_nil,
          List.getLast?_append_of_ne_nil pre (record_suffix_body_ne_nil lvl id []),
          record_suffix_body_last]
      simp
    · rw [List.getLast?_append_of_ne_nil _ hdm]
      exact h2

/-- Witness for C6 (amended): a message already ending in `'\n'` passes
through the layout unchanged — no second newline is appended. -/
theorem layout_trailing_newline_witness :
    construct_record (format_time ⟨118, 4, 20, 15, 14, 23⟩ 7) level.info 1
        "ok\n".data
      = format_time ⟨118, 4, 20, 15, 14, 23⟩ 7
        ++ record_suffix_body level.info 1 "ok\n".data :=
  (layout_trailing_newline (format_time ⟨118, 4, 20, 15, 14, 23⟩ 7)
      level.info 1 "ok\n".data).2.1 (by decide)

theorem commaJoin_cons (x : String) (ys : List String) :
    commaJoin (x :: ys) = x ++ commaTail ys := by
  induction ys generalizing x with
  | nil => simp [commaJoin, commaTail]
  | cons y ys ih =>
    simp only [commaJoin, commaTail, ih y, String.append_assoc]

theorem print_seq_items_tail :
    ∀ (xs : List String) (i : Nat), 1 ≤ i → i ≤ max_print_count →
      print_seq_items xs i
        = (commaTail (xs.take (max_print_count - i)),
           xs.drop (max_print_count - i)) := by
  intro xs
  induction xs with
  | nil =>
    intro i h1 h2
    simp [print_seq_items, commaTail]
  | cons x xs ih =>
    intro i h1 h2
    by_cases hi : i < max_print_count
    · simp only [print_seq_items, if_pos hi]
      rw [ih (i + 1) (by omega) (by omega)]
      have ht : max_print_count - i = (max_print_count - (i + 1)) + 1 := by omega
      rw [ht, List.take_succ_cons, List.drop_succ_cons]
      have hipos : i > 0 := h1
      simp [hipos, commaTail, String.append_assoc]
    · have hieq : i = max_print_count := by omega
      subst hieq
      simp [print_seq_items, commaTail]

/-- Claim C8: the pretty-print collaborator renders the pair ("k", 5) as
"k: 5" and the sequence [1, 2, 3] as "[1, 2, 3]"; every sequence longer
than the display cap (100) prints exactly its first 100 elements followed
by the ellipsis marker before the closing bracket. -/
theorem pretty_print_collab :
    print_pair "k" "5" = "k: 5"
    ∧ print_sequence false ["1", "2", "3"] = "[1, 2, 3]"
    ∧ ∀ (l : List String), max_print_count < l.length →
        print_sequence false l
          = "[" ++ commaJoin (l.take max_print_count) ++ " ..." ++ "]" := by
  refine ⟨rfl, rfl, ?_⟩
  intro l hl
  cases l with
  | nil => simp at hl
  | cons x xs =>
    have hmpc : max_print_count = 100 := rfl
    have hxs : max_print_count - 1 < xs.length := by
      simp only [List.length_cons] at hl
      omega
    have hdrop : xs.drop (max_print_count - 1) ≠ [] := by
      rw [Ne, List.drop_eq_nil_iff]
      omega
    have h0lt : (0 : Nat) < max_print_count := by decide
    simp only [print_sequence, print_seq_items, if_pos h0lt]
    rw [print_seq_items_tail xs 1 (by omega) (by decide)]
    have h100 : max_print_count = (max_print_count - 1) + 1 := by decide
    rw [h100, List.take_succ_cons, commaJoin_cons]
    simp [hdrop, String.append_assoc]

/-- Witness for C8: a 101-element sequence prints its first 100 elements
and the ellipsis marker. -/
theorem pretty_print_collab_witness :
    print_sequence false (List.replicate 101 "7")
      = "[" ++ commaJoin ((List.replicate 101 "7").take max_print_count)
        ++ " ..." ++ "]" :=
  pretty_print_collab.2.2 (List.replicate 101 "7") (by decide)

/-- Witness for C1: at the boundary (record level = floor = info) the sink
delivers and the logger consumes. -/
theorem sink_and_logger_floor_boundary_witness :
    ((sink_write level.info level.info "m".data).isSome = true
      ↔ level.info.toNat ≤ level.info.toNat)
    ∧ (Logger.consume ⟨"app", level.info, []⟩ level.info = true
      ↔ level.info.toNat ≤ level.info.toNat)
    ∧ (sink_write level.info level.info "m".data).isSome
      = Logger.consume ⟨"app", level.info, []⟩ level.info :=
  sink_and_logger_floor_boundary level.info level.info "m".data "app" []

/-- Witness for C7: a non-null, open sink makes the adapter open, and a
consume preserves that. -/
theorem adapter_open_iff_sink_open_witness :
    (adapter_is_open (some ⟨level.trace, true, []⟩) = true
      ↔ ∃ sk, (some ⟨level.trace, true, []⟩ : Option SinkObj) = some sk
          ∧ sk.opened = true)
    ∧ (adapter_consume (some ⟨level.trace, true, []⟩)
        ⟨⟨118, 4, 20, 15, 14, 23⟩, 7, level.info, 1, "hi".data⟩).isSome
      = (some ⟨level.trace, true, []⟩ : Option SinkObj).isSome
    ∧ adapter_is_open (adapter_consume (some ⟨level.trace, true, []⟩)
        ⟨⟨118, 4, 20, 15, 14, 23⟩, 7, level.info, 1, "hi".data⟩)
      = adapter_is_open (some ⟨level.trace, true, []⟩) :=
  adapter_open_iff_sink_open (some ⟨level.trace, true, []⟩)
    ⟨⟨118, 4, 20, 15, 14, 23⟩, 7, level.info, 1, "hi".data⟩
